import Mathlib

/-!
# Batch TIFF classification pipeline (`src/main.cpp`)

A shallow embedding of `loadTIFFImage`, `mockModelForward`, `logPrediction`
and `main`, followed by the properties established about them.

Conventions of the embedding
* `uint32_t` values are natural numbers reduced modulo `2 ^ 32`.
* A `float` is represented by the rational number it denotes; the two float
  operations the program performs (`int → float` conversion and division)
  are modelled with IEEE-754 binary32 round-to-nearest-even. Every float the
  program computes is a quotient of non-negative integers by a positive one,
  so no NaN and no infinity occurs and `<` on floats is `<` on rationals.
* `size_t` is taken to be 64 bits wide, so that `totalPixels * 3 *
  sizeof(float)` does not wrap.
* The output stream is the string of characters it has accepted so far.
* A run that executes an operation with undefined behaviour is marked as
  such in its state; nothing is claimed about its exit code or its output.
* The libraries the program links against (libtiff, the C library, CUDA,
  cuDNN, `std::filesystem`) are inputs of the model, collected in `World`.
-/

namespace TiffPipeline

/-! ## binary32 arithmetic used by the program -/

/-- Quotient `a / b` rounded to the nearest integer, ties to the even one. -/
def roundHalfEven (a b : Nat) : Nat :=
  if 2 * (a % b) < b then a / b
  else if b < 2 * (a % b) then a / b + 1
  else if (a / b) % 2 = 0 then a / b
  else a / b + 1

/-- Position of the leading one bit of `n`, for `n` below `2 ^ fuel`. -/
def floorLog2 : Nat → Nat → Nat
  | 0, _ => 0
  | fuel + 1, n => if n < 2 then 0 else floorLog2 fuel (n / 2) + 1

/-- Conversion of a non-negative integer below `2 ^ 64` to `float`: integers
below `2 ^ 24` are exact, larger ones keep 24 significant bits (the result
is again an integer). -/
def f32OfNat (n : Nat) : Nat :=
  if n < 2 ^ 24 then n
  else roundHalfEven n (2 ^ (floorLog2 64 n - 23)) * 2 ^ (floorLog2 64 n - 23)

/-- Search for the least `k` (starting from the given one) for which
`a * 2 ^ k / b` is at least `2 ^ 23`, i.e. for which the scaled quotient has
a full 24-bit significand. -/
def normShift (a b : Nat) : Nat → Nat → Nat
  | 0, k => k
  | fuel + 1, k => if b * 2 ^ 23 ≤ a * 2 ^ k then k else normShift a b fuel (k + 1)

/-- Value of the `float` division `a / b` of two floats holding the integers
`a` and `b`, for a quotient below `2 ^ 24` and not below `2 ^ (-41)`: the
exact quotient rounded to a 24-bit significand (the program only divides a
number by one that is not smaller). The divisors in the program are `255.0f`
and `RAND_MAX`, never zero; the value given for `b = 0` is not used. -/
def f32Div (a b : Nat) : ℚ :=
  if a = 0 ∨ b = 0 then 0
  else (roundHalfEven (a * 2 ^ normShift a b 64 0) b : ℚ) / 2 ^ normShift a b 64 0

/-! ## libtiff pixel accessors -/

/-- Modelled from the spec: the `tiffio.h` macro `TIFFGetR`,
`((abgr) & 0xff)`: bits 0-7 of a packed ABGR word. -/
def TIFFGetR (abgr : Nat) : Nat := abgr &&& 0xff

/-- Modelled from the spec: the `tiffio.h` macro `TIFFGetG`,
`(((abgr) >> 8) & 0xff)`: bits 8-15 of a packed ABGR word. -/
def TIFFGetG (abgr : Nat) : Nat := (abgr >>> 8) &&& 0xff

/-- Modelled from the spec: the `tiffio.h` macro `TIFFGetB`,
`(((abgr) >> 16) & 0xff)`: bits 16-23 of a packed ABGR word. -/
def TIFFGetB (abgr : Nat) : Nat := (abgr >>> 16) &&& 0xff

/-- Modelled from the spec: the `tiffio.h` macro `TIFFGetA`,
`(((abgr) >> 24) & 0xff)`: bits 24-31 of a packed ABGR word (never called by
the program). -/
def TIFFGetA (abgr : Nat) : Nat := (abgr >>> 24) &&& 0xff

/-! ## The tensor loop of `loadTIFFImage` (lines 41-67) -/

/-- The expression `width * height` of line 45: a product of two `uint32_t`
operands, reduced modulo `2 ^ 32` before it is widened to `size_t`. -/
def totalPixels (width height : Nat) : Nat :=
  ((width % 2 ^ 32) * (height % 2 ^ 32)) % 2 ^ 32

/-- The expression `x / 255.0f` of lines 64-66 for a `uint32_t` channel
value `x`. -/
def normalizeSample (x : Nat) : ℚ := f32Div (f32OfNat x) 255

/-- One iteration of the loop of lines 63-67: three stores into
`inputData`. A cell of the buffer is `none` while nothing has been stored in
it. -/
def storePixel (raster : Nat → Nat) (inputData : List (Option ℚ)) (i : Nat) :
    List (Option ℚ) :=
  ((inputData.set (i * 3 + 0) (some (normalizeSample (TIFFGetR (raster i % 2 ^ 32))))).set
      (i * 3 + 1) (some (normalizeSample (TIFFGetG (raster i % 2 ^ 32))))).set
    (i * 3 + 2) (some (normalizeSample (TIFFGetB (raster i % 2 ^ 32))))

/-- Lines 61-67: `inputData` is allocated with `total * 3` cells and the loop
runs for `i = 0, ..., total - 1`. -/
def buildTensor (raster : Nat → Nat) (total : Nat) : List (Option ℚ) :=
  (List.range total).foldl (storePixel raster) (List.replicate (total * 3) none)

/-! ## The environment of a run -/

/-- What `TIFFOpen` and the calls that follow it find in one file. -/
structure TiffFile where
  /-- Value `TIFFGetField` stores for `TIFFTAG_IMAGEWIDTH`. -/
  width : Nat
  /-- Value `TIFFGetField` stores for `TIFFTAG_IMAGELENGTH`. -/
  height : Nat
  /-- Whether `_TIFFmalloc` returns a non-null pointer. -/
  allocOk : Bool
  /-- Whether `TIFFReadRGBAImage` returns non-zero. -/
  readOk : Bool
  /-- Word that `TIFFReadRGBAImage` leaves in `raster[i]`. -/
  raster : Nat → Nat

/-- One element yielded by `fs::directory_iterator`. -/
structure DirEntry where
  /-- Result of `file.path().string()`. -/
  path : String
  /-- Result of `file.path().extension()`. -/
  extension : String
  /-- Whether the entry is a regular file (never consulted by the program). -/
  isRegular : Bool
deriving DecidableEq, Repr

/-- Everything outside `src/main.cpp` that a run depends on. A world
describes a machine on which the CUDA runtime calls of the program succeed
(`cudaSetDevice`, `cudaMallocManaged`, `cudaFree`) and the tensor
descriptors can be created; the program tests none of their statuses, and a
run in which one of them fails is outside the model. -/
structure World where
  /-- First parameter of `main`. -/
  argc : Nat
  /-- Whether `cudnnCreate` reports success. -/
  cudnnCreateOk : Bool
  /-- Whether the constructor of `outFile` manages to open `argv[2]`. -/
  outOpens : Bool
  /-- Elements of `fs::directory_iterator(inputDir)`, in iteration order. -/
  entries : List DirEntry
  /-- Result of `TIFFOpen(path, "r")`, `none` for a null pointer. -/
  tiffOpen : String → Option TiffFile
  /-- The constant `RAND_MAX` of `<cstdlib>`. -/
  RAND_MAX : Nat
  /-- Value returned by the `k`-th call of `rand()` in the process, counting
  from zero. -/
  rand : Nat → Nat
  /-- Text that `operator<<` writes for a `float`. -/
  fmt : ℚ → String

/-- Kinds of resource the program acquires. -/
inductive Res where
  | cudnnHandle
  | tiffHandle
  | rasterBuf
  | tensorDesc
  | tensorBuf
  | outputDesc
  | scoreBuf
deriving DecidableEq, Repr

/-- An acquisition or a release of the resource of the given kind and serial
number. -/
inductive Event where
  | acquire (r : Res) (id : Nat)
  | release (r : Res) (id : Nat)
deriving DecidableEq, Repr

/-- The observable state of the process. -/
structure State where
  /-- Whether `outFile` is open and in a good state. -/
  outGood : Bool
  /-- Characters written to `outFile` so far. -/
  out : String
  /-- Number of calls of `rand()` so far. -/
  randCalls : Nat
  /-- Arguments of the calls of `loadTIFFImage` so far. -/
  decoded : List String
  /-- Acquisitions and releases so far, oldest first. -/
  trace : List Event
  /-- Serial number of the next resource. -/
  nextId : Nat
  /-- Whether the run has executed an operation whose behaviour is undefined.
  Once it is set, the exit code and the other fields say nothing about the
  real process. -/
  undefinedBehaviour : Bool
deriving DecidableEq, Repr

/-- State of the process when `main` is entered. -/
def State.init : State :=
  { outGood := false, out := "", randCalls := 0, decoded := [], trace := [], nextId := 0,
    undefinedBehaviour := false }

/-- Record the acquisition of a resource of kind `r`; it gets the serial
number `s.nextId`. -/
def State.acquire (s : State) (r : Res) : State :=
  { s with trace := s.trace ++ [Event.acquire r s.nextId], nextId := s.nextId + 1 }

/-- Record the release of resource `id` of kind `r`. -/
def State.release (s : State) (r : Res) (id : Nat) : State :=
  { s with trace := s.trace ++ [Event.release r id] }

/-- An insertion `outFile << text`: a stream that is not good discards it. -/
def State.write (s : State) (text : String) : State :=
  if s.outGood then { s with out := s.out ++ text } else s

/-- Whether an event is the acquisition of a resource of kind `r`. -/
def Event.isAcquire (r : Res) : Event → Bool
  | Event.acquire k _ => decide (k = r)
  | Event.release _ _ => false

/-- Whether an event is the release of a resource of kind `r`. -/
def Event.isRelease (r : Res) : Event → Bool
  | Event.acquire _ _ => false
  | Event.release k _ => decide (k = r)

/-- Number of acquisitions of a resource of kind `r` in a trace. -/
def acquired (r : Res) (trace : List Event) : Nat := trace.countP (Event.isAcquire r)

/-- Number of releases of a resource of kind `r` in a trace. -/
def released (r : Res) (trace : List Event) : Nat := trace.countP (Event.isRelease r)

/-- Number of resources of kind `r` still held at the end of a trace. -/
def held (r : Res) (trace : List Event) : Nat := acquired r trace - released r trace

/-! ## `initializeCuDNN` (lines 15-30) -/

/-- The function never inspects a status: device count, device selection
and `cudnnCreate` may all fail and the function still returns. The handle
counts as acquired only when `cudnnCreate` succeeded; its serial number is
returned (`none` stands for the indeterminate handle of a failed call). The
lines written to `cout` are not part of the model. -/
def initializeCuDNN (w : World) (s : State) : Option Nat × State :=
  if w.cudnnCreateOk then (some s.nextId, s.acquire Res.cudnnHandle) else (none, s)

/-! ## `loadTIFFImage` (lines 33-71) -/

/-- The conversion `static_cast<int>(x)` of a `uint32_t`. -/
def toInt32 (x : Nat) : Int :=
  if x % 2 ^ 32 < 2 ^ 31 then (x % 2 ^ 32 : Nat) else ((x % 2 ^ 32 : Nat) : Int) - 2 ^ 32

/-- The tuple `loadTIFFImage` returns, with the contents of the buffer that
`inputData` points to. -/
structure LoadedImage where
  /-- Serial number of the tensor descriptor. -/
  tensorDesc : Nat
  /-- Serial number of the buffer `inputData`. -/
  inputData : Nat
  /-- Contents of `inputData`. -/
  data : List (Option ℚ)
  /-- Third component, the batch size. -/
  n : Int
  /-- Fourth component. -/
  h : Int
  /-- Fifth component. -/
  w : Int

/-- `Except.error (code, s)` stands for `exit(code)` in state `s`. The CUDA
and cuDNN calls of the body are taken to succeed (see `World`); the code
does not test their status. -/
def loadTIFFImage (w : World) (s : State) (filePath : String) :
    Except (Nat × State) (LoadedImage × State) :=
  let s0 := { s with decoded := s.decoded ++ [filePath] }
  match w.tiffOpen filePath with
  | none => Except.error (1, s0)
  | some tiff =>
    let tiffId := s0.nextId
    let s1 := s0.acquire Res.tiffHandle
    let total := totalPixels tiff.width tiff.height
    if tiff.allocOk = false then Except.error (1, s1)
    else
      let rasterId := s1.nextId
      let s2 := s1.acquire Res.rasterBuf
      if tiff.readOk = false then Except.error (1, s2)
      else
        let s3 := s2.release Res.tiffHandle tiffId
        let descId := s3.nextId
        let s4 := s3.acquire Res.tensorDesc
        let dataId := s4.nextId
        let s5 := s4.acquire Res.tensorBuf
        let inputData := buildTensor tiff.raster total
        let s6 := s5.release Res.rasterBuf rasterId
        Except.ok
          ({ tensorDesc := descId, inputData := dataId, data := inputData, n := 1,
             h := toInt32 tiff.height, w := toInt32 tiff.width }, s6)

/-- Whether `loadTIFFImage` gets past both of its error exits on a path. -/
def decodes (w : World) (filePath : String) : Bool :=
  match w.tiffOpen filePath with
  | none => false
  | some tiff => tiff.allocOk && tiff.readOk

/-! ## `mockModelForward` (lines 74-89) -/

/-- The expression `static_cast<float>(rand()) / RAND_MAX` for the value `r`
returned by `rand()`. -/
def scoreOfRand (w : World) (r : Nat) : ℚ := f32Div (f32OfNat r) (f32OfNat w.RAND_MAX)

/-- The loop of lines 84-86: `numClasses` consecutive calls of `rand()`, the
first of them being call number `calls` of the process. -/
def fillScores (w : World) : Nat → Nat → List ℚ
  | 0, _ => []
  | numClasses + 1, calls => scoreOfRand w (w.rand calls) :: fillScores w numClasses (calls + 1)

/-- The pointer `mockModelForward` returns, with the contents of the buffer
it points to. -/
structure ModelOutput where
  /-- Serial number of the buffer `outputData`. -/
  outputData : Nat
  /-- Contents of `outputData`. -/
  scores : List ℚ

/-- The parameters `handle`, `inputDesc` and `inputData` are not used by the
body. -/
def mockModelForward (w : World) (s : State) (_handle : Option Nat) (_inputDesc : Nat)
    (_inputData : List (Option ℚ)) (numClasses : Nat) : ModelOutput × State :=
  let s1 := s.acquire Res.outputDesc
  let outId := s1.nextId
  let s2 := s1.acquire Res.scoreBuf
  let scores := fillScores w numClasses s2.randCalls
  ({ outputData := outId, scores := scores },
   { s2 with randCalls := s2.randCalls + numClasses })

/-! ## `logPrediction` (lines 92-101) -/

/-- The loop of `std::max_element` after its first element,
`if (*largest < *first) largest = first;` for every further position:
`largest` is the position of the greatest element seen so far and `best` its
value, `i` the position of the head of the remaining range. -/
def max_element_loop (best : ℚ) (largest : Nat) : List ℚ → Nat → Nat
  | [], _ => largest
  | x :: rest, i =>
    if best < x then max_element_loop x i rest (i + 1)
    else max_element_loop best largest rest (i + 1)

/-- The value of `std::max_element(first, last) - first`: position 0 for an
empty range. -/
def max_element : List ℚ → Nat
  | [] => 0
  | x :: rest => max_element_loop x 0 rest 1

/-- The loop of lines 98-99. -/
def writeScores (w : World) (s : State) : List ℚ → State
  | [] => s
  | x :: rest => writeScores w ((s.write (w.fmt x)).write " ") rest

/-- The array `classProbs` of length `numClasses` is the list
`classProbs`. -/
def logPrediction (w : World) (s : State) (imagePath : String) (classProbs : List ℚ) :
    State :=
  let predictedClass := max_element classProbs
  let s1 := ((s.write "File: ").write imagePath).write "\n"
  let s2 := ((s1.write "Predicted class: ").write (toString predictedClass)).write "\n"
  let s3 := s2.write "Class probabilities: "
  let s4 := writeScores w s3 classProbs
  s4.write "\n\n"

/-! ## `main` (lines 104-134) -/

/-- The test of line 120. -/
def eligible (file : DirEntry) : Bool :=
  file.extension = ".tif" || file.extension = ".tiff"

/-- The constant `numClasses` of line 113. -/
def numClasses : Nat := 10

/-- The body of the loop of lines 119-128 for one directory entry. -/
def processEntry (w : World) (cudnnHandle : Option Nat) (s : State) (file : DirEntry) :
    Except (Nat × State) State :=
  if eligible file then
    match loadTIFFImage w s file.path with
    | Except.error e => Except.error e
    | Except.ok (img, s1) =>
      let (output, s2) := mockModelForward w s1 cudnnHandle img.tensorDesc img.data numClasses
      let s3 := logPrediction w s2 file.path output.scores
      let s4 := s3.release Res.tensorBuf img.inputData
      let s5 := s4.release Res.scoreBuf output.outputData
      Except.ok s5
  else Except.ok s

/-- The loop of lines 119-128 over the entries the iterator yields. -/
def processEntries (w : World) (cudnnHandle : Option Nat) :
    State → List DirEntry → Except (Nat × State) State
  | s, [] => Except.ok s
  | s, file :: rest =>
    match processEntry w cudnnHandle s file with
    | Except.error e => Except.error e
    | Except.ok s1 => processEntries w cudnnHandle s1 rest

/-- The exit code of the process and its final state. Line 130 calls
`cudnnDestroy` on the handle whatever `initializeCuDNN` returned: on the
indeterminate handle of a failed `cudnnCreate` the behaviour is undefined,
which the final state records. The messages written to `cout` and `cerr`
are not part of the model, nor is an exception thrown by the directory
iterator. -/
def main (w : World) : Nat × State :=
  if w.argc < 3 then (1, State.init)
  else
    let (cudnnHandle, s1) := initializeCuDNN w State.init
    let s2 := { s1 with outGood := w.outOpens }
    match processEntries w cudnnHandle s2 w.entries with
    | Except.error e => e
    | Except.ok s3 =>
      let s4 := match cudnnHandle with
        | some id => s3.release Res.cudnnHandle id
        | none => { s3 with undefinedBehaviour := true }
      (0, { s4 with outGood := false })

/-! ## Concrete library behaviour for concrete runs -/

/-- Decimal digits of `n`, padded on the left with zeros to a given width. -/
def padDigits (width n : Nat) : String :=
  String.mk (List.replicate (width - (toString n).length) '0') ++ toString n

/-- A digit string without its trailing zeros. -/
def stripZeros (digits : String) : String :=
  String.mk (digits.data.reverse.dropWhile (fun c => c = '0')).reverse

/-- Whether `10 ^ e ≤ n / d`. -/
def atLeastPow10 (n d : Nat) (e : Int) : Bool :=
  if 0 ≤ e then decide (d * 10 ^ e.toNat ≤ n) else decide (d ≤ n * 10 ^ (-e).toNat)

/-- The greatest `e` not above the starting value with `10 ^ e ≤ n / d`. -/
def decimalExponent (n d : Nat) : Nat → Int → Int
  | 0, e => e
  | fuel + 1, e => if atLeastPow10 n d e then e else decimalExponent n d fuel (e - 1)

/-- The six significant digits of `n / d` as an integer, for the decimal
exponent `e`. -/
def sixDigits (n d : Nat) (e : Int) : Nat :=
  if e ≤ 5 then roundHalfEven (n * 10 ^ (5 - e).toNat) d
  else roundHalfEven n (d * 10 ^ (e - 5).toNat)

/-- A fractional part as it is printed: nothing when it is zero. -/
def fractionText (digits : String) : String :=
  if stripZeros digits = "" then "" else "." ++ stripZeros digits

/-- The text of a positive `n / d` in the `%g` style with six significant
digits. -/
def fmtPositive (n d : Nat) : String :=
  let e0 := decimalExponent n d 100 40
  let m0 := sixDigits n d e0
  let e := if m0 = 10 ^ 6 then e0 + 1 else e0
  let m := if m0 = 10 ^ 6 then 10 ^ 5 else m0
  if e < -4 ∨ 6 ≤ e then
    toString (m / 10 ^ 5) ++ fractionText (padDigits 5 (m % 10 ^ 5)) ++ "e"
      ++ (if e < 0 then "-" else "+") ++ padDigits 2 e.natAbs
  else
    toString (m / 10 ^ (5 - e).toNat)
      ++ fractionText (padDigits (5 - e).toNat (m % 10 ^ (5 - e).toNat))

/-- The text a stream with default flags writes for a finite `float`: the
`%g` conversion with six significant digits. It is the `fmt` of the concrete
worlds below; no general statement depends on it. -/
def fmtG6 (x : ℚ) : String :=
  if x = 0 then "0"
  else if x < 0 then "-" ++ fmtPositive x.num.natAbs x.den
  else fmtPositive x.num.natAbs x.den

/-- State of the sample generator of the C standard (section on `rand`)
after `k` calls, for the default seed 1. -/
def sampleRandState : Nat → Nat
  | 0 => 1
  | k + 1 => (sampleRandState k * 1103515245 + 12345) % 2 ^ 32

/-- Value of call number `k` of that generator, whose `RAND_MAX` is 32767. -/
def sampleRand (k : Nat) : Nat := (sampleRandState (k + 1) / 65536) % 32768

/-- A decodable image of 2 x 1 pixels: red, then green, both opaque. -/
def redGreen : TiffFile :=
  { width := 2, height := 1, allocOk := true, readOk := true,
    raster := fun i => [0xff0000ff, 0xff00ff00].getD i 0 }

/-- A file system in which `in/a.tif` and `in/b.tiff` are the image
`redGreen` and nothing else can be opened as a TIFF. -/
def sampleOpen (path : String) : Option TiffFile :=
  if path = "in/a.tif" ∨ path = "in/b.tiff" then some redGreen else none

/-- A run over the given directory listing with both arguments present, a
working cuDNN and a writable output file. -/
def sampleWorld (entries : List DirEntry) : World :=
  { argc := 3, cudnnCreateOk := true, outOpens := true, entries := entries,
    tiffOpen := sampleOpen, RAND_MAX := 32767, rand := sampleRand, fmt := fmtG6 }

/-- Eligibility as the specification words it (section 4.5): a regular file
whose extension is one of the two recognised ones. -/
def specEligible (file : DirEntry) : Bool :=
  file.isRegular && (file.extension = ".tif" || file.extension = ".tiff")

/-! ## The report as a text -/

/-- Concatenation of a list of texts, in order. -/
def concatAll : List String → String
  | [] => ""
  | text :: rest => text ++ concatAll rest

/-- The text one call of `logPrediction` inserts into the stream: three
lines and an empty line, every score followed by one space. -/
def reportBlock (w : World) (imagePath : String) (classProbs : List ℚ) : String :=
  "File: " ++ imagePath ++ "\n" ++ "Predicted class: " ++ toString (max_element classProbs)
    ++ "\n" ++ "Class probabilities: " ++ concatAll (classProbs.map (fun x => w.fmt x ++ " "))
    ++ "\n\n"

/-- The block as the specification words it: the scores separated by single
spaces, nothing between the last score and the end of its line. -/
def claimedBlock (w : World) (imagePath : String) (classProbs : List ℚ) : String :=
  "File: " ++ imagePath ++ "\n" ++ "Predicted class: " ++ toString (max_element classProbs)
    ++ "\n" ++ "Class probabilities: " ++ " ".intercalate (classProbs.map w.fmt)
    ++ "\n" ++ "\n"

/-- The blocks of a run in which every eligible entry decodes: entry number
`k` among the eligible ones is scored with the calls `numClasses * k`, ...,
`numClasses * k + numClasses - 1` of `rand()`. -/
def reportBlocks (w : World) (files : List DirEntry) : List String :=
  (files.filter eligible).enum.map
    (fun kf => reportBlock w kf.2.path (fillScores w numClasses (numClasses * kf.1)))

/-! ## One iteration of the loop, in closed form -/

/-- The acquisitions and releases of one iteration of the loop of `main`
that gets past `loadTIFFImage`, `n` being the serial number of the first
resource: lines 35, 46, 53, 57, 62, 69, 77, 81, 125 and 126. No line of the
program releases a tensor descriptor. -/
def imageEvents (n : Nat) : List Event :=
  [Event.acquire Res.tiffHandle n, Event.acquire Res.rasterBuf (n + 1),
   Event.release Res.tiffHandle n, Event.acquire Res.tensorDesc (n + 2),
   Event.acquire Res.tensorBuf (n + 3), Event.release Res.rasterBuf (n + 1),
   Event.acquire Res.outputDesc (n + 4), Event.acquire Res.scoreBuf (n + 5),
   Event.release Res.tensorBuf (n + 3), Event.release Res.scoreBuf (n + 5)]

/-- The state one such iteration leaves. -/
def afterImage (w : World) (s : State) (file : DirEntry) : State :=
  { outGood := s.outGood,
    out := if s.outGood then
        s.out ++ reportBlock w file.path (fillScores w numClasses s.randCalls)
      else s.out,
    randCalls := s.randCalls + numClasses,
    decoded := s.decoded ++ [file.path],
    trace := s.trace ++ imageEvents s.nextId,
    nextId := s.nextId + 6,
    undefinedBehaviour := s.undefinedBehaviour }

/-- The blocks written for a list of entries that all decode, the first
eligible one being scored from call number `calls` of `rand()`. -/
def blocksFrom (w : World) : Nat → List DirEntry → List String
  | _, [] => []
  | calls, file :: rest =>
    if eligible file then
      reportBlock w file.path (fillScores w numClasses calls)
        :: blocksFrom w (calls + numClasses) rest
    else blocksFrom w calls rest

/-- The handle and the state with which `main` enters its loop (lines
115-116), for a run that has its two arguments. -/
def loopStart (w : World) : Option Nat × State :=
  ((initializeCuDNN w State.init).1,
   { (initializeCuDNN w State.init).2 with outGood := w.outOpens })

/-- The state in which a loop iteration ends, whether it returned or called
`exit`. -/
def stateOf : Except (Nat × State) State → State
  | Except.ok s => s
  | Except.error e => e.2

/-! ## Auxiliary facts -/

theorem f32OfNat_small (x : Nat) (h : x < 2 ^ 24) : f32OfNat x = x := by
  unfold f32OfNat
  rw [if_pos h]

theorem TIFFGetR_eq (x : Nat) : TIFFGetR x = x % 256 := by
  unfold TIFFGetR
  exact Nat.and_pow_two_sub_one_eq_mod x 8

theorem TIFFGetG_eq (x : Nat) : TIFFGetG x = x / 256 % 256 := by
  unfold TIFFGetG
  rw [Nat.shiftRight_eq_div_pow]
  exact Nat.and_pow_two_sub_one_eq_mod _ 8

theorem TIFFGetB_eq (x : Nat) : TIFFGetB x = x / 65536 % 256 := by
  unfold TIFFGetB
  rw [Nat.shiftRight_eq_div_pow]
  exact Nat.and_pow_two_sub_one_eq_mod _ 8

theorem normalizeSample_byte (x : Nat) (h : x < 256) : normalizeSample x = f32Div x 255 := by
  unfold normalizeSample
  rw [f32OfNat_small x (by omega)]

/-- The model reproduces the binary32 values of `0.2f` (as `51 / 255.0f`),
of `1.0f / 3.0f` and of `(float)2147483647`. -/
theorem f32_known_values :
    f32Div 51 255 = 13421773 / 67108864 ∧ f32Div 1 3 = 11184811 / 33554432
      ∧ f32OfNat 2147483647 = 2147483648 := by
  decide!

theorem f32Div_255_accurate : ∀ b < 256, |f32Div b 255 - (b : ℚ) / 255| ≤ 1 / 2 ^ 25 := by
  decide!


theorem storePixel_length (raster : Nat → Nat) (buf : List (Option ℚ)) (i : Nat) :
    (storePixel raster buf i).length = buf.length := by
  simp [storePixel]

theorem storePixel_other (raster : Nat → Nat) (buf : List (Option ℚ)) (i j : Nat)
    (h : j < i * 3 ∨ i * 3 + 3 ≤ j) : (storePixel raster buf i)[j]? = buf[j]? := by
  unfold storePixel
  rw [List.getElem?_set_ne (by omega), List.getElem?_set_ne (by omega),
    List.getElem?_set_ne (by omega)]

theorem storePixel_here (raster : Nat → Nat) (buf : List (Option ℚ)) (i : Nat)
    (h : i * 3 + 3 ≤ buf.length) :
    (storePixel raster buf i)[i * 3]? = some (some (normalizeSample (TIFFGetR (raster i % 2 ^ 32))))
    ∧ (storePixel raster buf i)[i * 3 + 1]?
        = some (some (normalizeSample (TIFFGetG (raster i % 2 ^ 32))))
    ∧ (storePixel raster buf i)[i * 3 + 2]?
        = some (some (normalizeSample (TIFFGetB (raster i % 2 ^ 32)))) := by
  unfold storePixel
  refine ⟨?_, ?_, ?_⟩
  · rw [List.getElem?_set_ne (by omega), List.getElem?_set_ne (by omega)]
    simp only [Nat.add_zero]
    rw [List.getElem?_set_self (by omega)]
  · rw [List.getElem?_set_ne (by omega)]
    rw [List.getElem?_set_self (by simp; omega)]
  · rw [List.getElem?_set_self (by simp; omega)]

/-- State of the buffer after the first `n` iterations of the loop. -/
theorem tensorLoop_spec (raster : Nat → Nat) (buf : List (Option ℚ)) (n : Nat)
    (h : n * 3 ≤ buf.length) :
    ((List.range n).foldl (storePixel raster) buf).length = buf.length
    ∧ (∀ i, i < n →
        ((List.range n).foldl (storePixel raster) buf)[i * 3]?
            = some (some (normalizeSample (TIFFGetR (raster i % 2 ^ 32))))
        ∧ ((List.range n).foldl (storePixel raster) buf)[i * 3 + 1]?
            = some (some (normalizeSample (TIFFGetG (raster i % 2 ^ 32))))
        ∧ ((List.range n).foldl (storePixel raster) buf)[i * 3 + 2]?
            = some (some (normalizeSample (TIFFGetB (raster i % 2 ^ 32)))))
    ∧ (∀ j, n * 3 ≤ j → ((List.range n).foldl (storePixel raster) buf)[j]? = buf[j]?) := by
  induction n with
  | zero => simp
  | succ n ih =>
    obtain ⟨hlen, hpix, hrest⟩ := ih (by omega)
    rw [List.range_succ, List.foldl_append]
    simp only [List.foldl_cons, List.foldl_nil]
    refine ⟨?_, ?_, ?_⟩
    · rw [storePixel_length, hlen]
    · intro i hi
      by_cases hin : i < n
      · obtain ⟨h0, h1, h2⟩ := hpix i hin
        rw [storePixel_other _ _ _ _ (by omega), storePixel_other _ _ _ _ (by omega),
          storePixel_other _ _ _ _ (by omega)]
        exact ⟨h0, h1, h2⟩
      · have hie : i = n := by omega
        subst hie
        exact storePixel_here raster _ i (by rw [hlen]; omega)
    · intro j hj
      rw [storePixel_other _ _ _ _ (by omega)]
      exact hrest j (by omega)

theorem buildTensor_pixel (raster : Nat → Nat) (total i : Nat) (hi : i < total) :
    (buildTensor raster total)[i * 3]?
        = some (some (normalizeSample (TIFFGetR (raster i % 2 ^ 32))))
    ∧ (buildTensor raster total)[i * 3 + 1]?
        = some (some (normalizeSample (TIFFGetG (raster i % 2 ^ 32))))
    ∧ (buildTensor raster total)[i * 3 + 2]?
        = some (some (normalizeSample (TIFFGetB (raster i % 2 ^ 32)))) := by
  unfold buildTensor
  exact (tensorLoop_spec raster _ total (by simp)).2.1 i hi


theorem channels_of_word (x : Nat) :
    TIFFGetR (x % 2 ^ 32) = x % 256 ∧ TIFFGetG (x % 2 ^ 32) = x / 2 ^ 8 % 256
      ∧ TIFFGetB (x % 2 ^ 32) = x / 2 ^ 16 % 256 := by
  rw [TIFFGetR_eq, TIFFGetG_eq, TIFFGetB_eq]
  norm_num
  omega

theorem storePixel_congr (r1 r2 : Nat → Nat) (buf : List (Option ℚ)) (i : Nat)
    (h : r1 i % 2 ^ 24 = r2 i % 2 ^ 24) : storePixel r1 buf i = storePixel r2 buf i := by
  have h1 := channels_of_word (r1 i)
  have h2 := channels_of_word (r2 i)
  have e0 : r1 i % 256 = r2 i % 256 := by norm_num at h; omega
  have e1 : r1 i / 2 ^ 8 % 256 = r2 i / 2 ^ 8 % 256 := by norm_num at h ⊢; omega
  have e2 : r1 i / 2 ^ 16 % 256 = r2 i / 2 ^ 16 % 256 := by norm_num at h ⊢; omega
  unfold storePixel
  rw [h1.1, h1.2.1, h1.2.2, h2.1, h2.2.1, h2.2.2, e0, e1, e2]

theorem tensorLoop_congr (r1 r2 : Nat → Nat) (n : Nat) (buf : List (Option ℚ))
    (h : ∀ j, j < n → r1 j % 2 ^ 24 = r2 j % 2 ^ 24) :
    (List.range n).foldl (storePixel r1) buf = (List.range n).foldl (storePixel r2) buf := by
  induction n with
  | zero => simp
  | succ n ih =>
    rw [List.range_succ, List.foldl_append, List.foldl_append, ih (fun j hj => h j (by omega))]
    simp only [List.foldl_cons, List.foldl_nil]
    exact storePixel_congr r1 r2 _ n (h n (by omega))

theorem buildTensor_congr (r1 r2 : Nat → Nat) (total : Nat)
    (h : ∀ j, j < total → r1 j % 2 ^ 24 = r2 j % 2 ^ 24) :
    buildTensor r1 total = buildTensor r2 total := by
  unfold buildTensor
  exact tensorLoop_congr r1 r2 total _ h

theorem buildTensor_channels (raster : Nat → Nat) (total i : Nat) (hi : i < total) :
    (buildTensor raster total)[3 * i]? = some (some (f32Div (raster i % 256) 255))
    ∧ (buildTensor raster total)[3 * i + 1]? = some (some (f32Div (raster i / 2 ^ 8 % 256) 255))
    ∧ (buildTensor raster total)[3 * i + 2]?
        = some (some (f32Div (raster i / 2 ^ 16 % 256) 255)) := by
  have h := buildTensor_pixel raster total i hi
  have hc := channels_of_word (raster i)
  rw [hc.1, hc.2.1, hc.2.2, Nat.mul_comm i 3] at h
  rw [normalizeSample_byte _ (Nat.mod_lt _ (by norm_num)),
    normalizeSample_byte _ (Nat.mod_lt _ (by norm_num)),
    normalizeSample_byte _ (Nat.mod_lt _ (by norm_num))] at h
  exact h

theorem loadTIFFImage_ok (w : World) (s : State) (filePath : String) (tiff : TiffFile)
    (hopen : w.tiffOpen filePath = some tiff) (halloc : tiff.allocOk = true)
    (hread : tiff.readOk = true) :
    ∃ img s1, loadTIFFImage w s filePath = Except.ok (img, s1)
      ∧ img.data = buildTensor tiff.raster (totalPixels tiff.width tiff.height) := by
  simp [loadTIFFImage, hopen, halloc, hread]


/-! ## Claims about the tensor -/

/-- C1: when `loadTIFFImage` gets past its error exits it returns a tensor
that holds, for every pixel index `i` below the pixel count, at positions
`3i`, `3i+1`, `3i+2` the `float` quotients by 255 of bits 0-7, 8-15 and 16-23
of raster word `i`; each such quotient is within `2⁻²⁵` of the exact
quotient; and a raster that differs only in bits 24-31 of its words gives the
same tensor. -/
theorem loadTIFFImage_layout (w : World) (s : State) (filePath : String) (tiff : TiffFile)
    (hopen : w.tiffOpen filePath = some tiff) (halloc : tiff.allocOk = true)
    (hread : tiff.readOk = true) :
    ∃ img s1, loadTIFFImage w s filePath = Except.ok (img, s1)
      ∧ (∀ i, i < totalPixels tiff.width tiff.height →
          img.data[3 * i]? = some (some (f32Div (tiff.raster i % 256) 255))
          ∧ img.data[3 * i + 1]? = some (some (f32Div (tiff.raster i / 2 ^ 8 % 256) 255))
          ∧ img.data[3 * i + 2]? = some (some (f32Div (tiff.raster i / 2 ^ 16 % 256) 255)))
      ∧ (∀ b, b < 256 → |f32Div b 255 - (b : ℚ) / 255| ≤ 1 / 2 ^ 25)
      ∧ (∀ (w2 : World) (s2 : State) (tiff2 : TiffFile),
          w2.tiffOpen filePath = some tiff2 →
          tiff2.width = tiff.width → tiff2.height = tiff.height →
          tiff2.allocOk = true → tiff2.readOk = true →
          (∀ j, j < totalPixels tiff.width tiff.height →
            tiff2.raster j % 2 ^ 24 = tiff.raster j % 2 ^ 24) →
          ∃ img2 s3, loadTIFFImage w2 s2 filePath = Except.ok (img2, s3)
            ∧ img2.data = img.data) := by
  obtain ⟨img, s1, hload, hdata⟩ := loadTIFFImage_ok w s filePath tiff hopen halloc hread
  refine ⟨img, s1, hload, ?_, f32Div_255_accurate, ?_⟩
  · intro i hi
    rw [hdata]
    exact buildTensor_channels tiff.raster _ i hi
  · intro w2 s2 tiff2 hopen2 hw hh halloc2 hread2 hsame
    obtain ⟨img2, s3, hload2, hdata2⟩ :=
      loadTIFFImage_ok w2 s2 filePath tiff2 hopen2 halloc2 hread2
    refine ⟨img2, s3, hload2, ?_⟩
    rw [hdata, hdata2, hw, hh]
    exact buildTensor_congr tiff2.raster tiff.raster _ hsame

/-- The layout theorem at the 2 x 1 image `redGreen`: the green channel of
pixel 1 is at position 4 and holds 1. -/
theorem loadTIFFImage_layout_witness :
    sampleOpen "in/a.tif" = some redGreen
    ∧ ∃ img s1, loadTIFFImage (sampleWorld []) State.init "in/a.tif" = Except.ok (img, s1)
        ∧ img.data[4]? = some (some 1) := by
  have hopen : sampleOpen "in/a.tif" = some redGreen := by simp [sampleOpen]
  obtain ⟨img, s1, hload, hpix, _⟩ :=
    loadTIFFImage_layout (sampleWorld []) State.init "in/a.tif" redGreen hopen rfl rfl
  refine ⟨hopen, img, s1, hload, ?_⟩
  have h := (hpix 1 (by decide)).2.1
  have hv : f32Div (redGreen.raster 1 / 2 ^ 8 % 256) 255 = 1 := by decide!
  rw [hv] at h
  exact h

theorem max_element_loop_spec (rest pre : List ℚ) (best : ℚ) (largest : Nat)
    (hbest : pre[largest]? = some best)
    (hmax : ∀ (j : Nat) (x : ℚ), pre[j]? = some x → x ≤ best)
    (hfirst : ∀ (j : Nat) (x : ℚ), j < largest → pre[j]? = some x → x < best) :
    ∃ m, (pre ++ rest)[max_element_loop best largest rest pre.length]? = some m
      ∧ (∀ (j : Nat) (x : ℚ), (pre ++ rest)[j]? = some x → x ≤ m)
      ∧ (∀ (j : Nat) (x : ℚ), j < max_element_loop best largest rest pre.length →
          (pre ++ rest)[j]? = some x → x < m) := by
  induction rest generalizing pre best largest with
  | nil =>
    simp only [max_element_loop, List.append_nil]
    exact ⟨best, hbest, hmax, hfirst⟩
  | cons y rest ih =>
    have hlt : largest < pre.length := by
      by_contra hge
      rw [List.getElem?_eq_none (by omega)] at hbest
      exact Option.noConfusion hbest
    have happ : pre ++ y :: rest = (pre ++ [y]) ++ rest := by simp
    have hlen : (pre ++ [y]).length = pre.length + 1 := by simp
    have hsplit : ∀ (j : Nat) (x : ℚ), (pre ++ [y])[j]? = some x →
        pre[j]? = some x ∨ (j = pre.length ∧ x = y) := by
      intro j x hj
      rw [List.getElem?_append] at hj
      split_ifs at hj with hjl
      · exact Or.inl hj
      · right
        have hj0 : j - pre.length = 0 := by
          by_contra hne
          rw [List.getElem?_eq_none (by simp; omega)] at hj
          exact Option.noConfusion hj
        rw [hj0] at hj
        simp at hj
        exact ⟨by omega, hj.symm⟩
    unfold max_element_loop
    rw [happ, ← hlen]
    split_ifs with hcmp
    · apply ih (pre ++ [y]) y pre.length
      · simp
      · intro j x hj
        rcases hsplit j x hj with h | ⟨_, h⟩
        · exact le_of_lt (lt_of_le_of_lt (hmax j x h) hcmp)
        · rw [h]
      · intro j x hjl hj
        rcases hsplit j x hj with h | ⟨h, _⟩
        · exact lt_of_le_of_lt (hmax j x h) hcmp
        · omega
    · apply ih (pre ++ [y]) best largest
      · rw [List.getElem?_append_left hlt]
        exact hbest
      · intro j x hj
        rcases hsplit j x hj with h | ⟨_, h⟩
        · exact hmax j x h
        · rw [h]
          exact not_lt.mp hcmp
      · intro j x hjl hj
        rcases hsplit j x hj with h | ⟨h, _⟩
        · exact hfirst j x hjl h
        · omega

/-- C3: for a non-empty score vector the predicted class of `logPrediction`
(its `max_element` position) is a position of the vector whose score is at
least every score of the vector and strictly greater than every score at a
smaller position. -/
theorem predictedClass_first_max (classProbs : List ℚ) (hne : classProbs ≠ []) :
    ∃ m, classProbs[max_element classProbs]? = some m
      ∧ max_element classProbs < classProbs.length
      ∧ (∀ (j : Nat) (x : ℚ), classProbs[j]? = some x → x ≤ m)
      ∧ (∀ (j : Nat) (x : ℚ), j < max_element classProbs → classProbs[j]? = some x → x < m) := by
  cases classProbs with
  | nil => exact absurd rfl hne
  | cons y rest =>
    have h := max_element_loop_spec rest [y] y 0 (by simp)
      (by
        intro j x hj
        cases j with
        | zero => simp at hj; rw [hj]
        | succ j => simp at hj)
      (by intro j x hj; omega)
    simp only [List.length_cons, List.length_nil, Nat.zero_add, List.singleton_append] at h
    obtain ⟨m, hm, hle, hlt⟩ := h
    refine ⟨m, hm, ?_, hle, hlt⟩
    by_contra hge
    simp only [max_element] at hm hge
    rw [List.getElem?_eq_none (by omega)] at hm
    exact Option.noConfusion hm

/-- The first-maximum theorem at a vector with equal maxima at positions 2
and 5: the predicted class is 2. -/
theorem predictedClass_first_max_witness :
    max_element [0, 1 / 2, 9 / 10, 1 / 10, 3 / 10, 9 / 10] = 2
    ∧ ∃ m, [0, 1 / 2, 9 / 10, 1 / 10, 3 / 10, (9 / 10 : ℚ)][max_element
          [0, 1 / 2, 9 / 10, 1 / 10, 3 / 10, 9 / 10]]? = some m
        ∧ max_element [0, 1 / 2, 9 / 10, 1 / 10, 3 / 10, 9 / 10] < 6 :=
  ⟨by decide!, by
    obtain ⟨m, h1, h2, _⟩ :=
      predictedClass_first_max [0, 1 / 2, 9 / 10, 1 / 10, 3 / 10, 9 / 10]
        (List.cons_ne_nil _ _)
    exact ⟨m, h1, h2⟩⟩


theorem write_good (s : State) (text : String) (h : s.outGood = true) :
    s.write text = { s with out := s.out ++ text } := by
  simp [State.write, h]

theorem write_bad (s : State) (text : String) (h : s.outGood = false) : s.write text = s := by
  simp [State.write, h]

theorem writeScores_good (w : World) (classProbs : List ℚ) (s : State)
    (h : s.outGood = true) :
    writeScores w s classProbs
      = { s with out := s.out ++ concatAll (classProbs.map (fun x => w.fmt x ++ " ")) } := by
  induction classProbs generalizing s with
  | nil => simp [writeScores, concatAll]
  | cons x rest ih =>
    simp only [writeScores, List.map_cons, concatAll]
    rw [write_good s _ h, write_good _ _ (by exact h), ih _ (by exact h)]
    simp [String.append_assoc]

theorem writeScores_bad (w : World) (classProbs : List ℚ) (s : State)
    (h : s.outGood = false) : writeScores w s classProbs = s := by
  induction classProbs generalizing s with
  | nil => simp [writeScores]
  | cons x rest ih =>
    simp only [writeScores]
    rw [write_bad s _ h, write_bad s _ h, ih _ h]

theorem logPrediction_good (w : World) (s : State) (imagePath : String)
    (classProbs : List ℚ) (h : s.outGood = true) :
    logPrediction w s imagePath classProbs
      = { s with out := s.out ++ reportBlock w imagePath classProbs } := by
  unfold logPrediction reportBlock
  simp only [write_good, h, writeScores_good]
  simp [String.append_assoc]

theorem logPrediction_bad (w : World) (s : State) (imagePath : String)
    (classProbs : List ℚ) (h : s.outGood = false) :
    logPrediction w s imagePath classProbs = s := by
  unfold logPrediction
  simp only [write_bad, h, writeScores_bad]

/-- C4, as the code has it: on a good stream `logPrediction` appends the
line `File: <path>`, the line `Predicted class: <index>`, the line made of
`Class probabilities: ` and every score in index order, each score followed
by one space (the last one too), and an empty line; a stream that is not
good is left as it was. -/
theorem logPrediction_appends_block (w : World) (s : State) (imagePath : String)
    (classProbs : List ℚ) :
    (s.outGood = true →
      (logPrediction w s imagePath classProbs).out
        = s.out ++ ("File: " ++ imagePath ++ "\n" ++ "Predicted class: "
            ++ toString (max_element classProbs) ++ "\n" ++ "Class probabilities: "
            ++ concatAll (classProbs.map (fun x => w.fmt x ++ " ")) ++ "\n\n"))
    ∧ (s.outGood = false → (logPrediction w s imagePath classProbs).out = s.out) := by
  constructor
  · intro h
    rw [logPrediction_good w s imagePath classProbs h]
    rfl
  · intro h
    rw [logPrediction_bad w s imagePath classProbs h]

/-- C4 as stated fails for the scores 0.1, 0.7, 0.2 (as `float`s): the third
line written is `Class probabilities: 0.1 0.7 0.2 `, with a space between the
last score and the end of the line, so the text differs from the block the
claim describes. -/
theorem logPrediction_trailing_space :
    (logPrediction (sampleWorld []) { State.init with outGood := true } "in/a.tif"
        [f32Div 1 10, f32Div 7 10, f32Div 1 5]).out
      = "File: in/a.tif\nPredicted class: 1\nClass probabilities: 0.1 0.7 0.2 \n\n"
    ∧ claimedBlock (sampleWorld []) "in/a.tif" [f32Div 1 10, f32Div 7 10, f32Div 1 5]
      = "File: in/a.tif\nPredicted class: 1\nClass probabilities: 0.1 0.7 0.2\n\n"
    ∧ (logPrediction (sampleWorld []) { State.init with outGood := true } "in/a.tif"
        [f32Div 1 10, f32Div 7 10, f32Div 1 5]).out
      ≠ claimedBlock (sampleWorld []) "in/a.tif" [f32Div 1 10, f32Div 7 10, f32Div 1 5] := by
  decide!


/-! ## The loop of `main` -/

theorem decodes_iff (w : World) (filePath : String) :
    decodes w filePath = true
      ↔ ∃ tiff, w.tiffOpen filePath = some tiff ∧ tiff.allocOk = true ∧ tiff.readOk = true := by
  unfold decodes
  cases h : w.tiffOpen filePath with
  | none => simp
  | some tiff => simp

theorem processEntry_skip (w : World) (handle : Option Nat) (s : State) (file : DirEntry)
    (h : eligible file = false) : processEntry w handle s file = Except.ok s := by
  simp [processEntry, h]

theorem processEntry_decodes (w : World) (handle : Option Nat) (s : State) (file : DirEntry)
    (helig : eligible file = true) (hdec : decodes w file.path = true) :
    processEntry w handle s file = Except.ok (afterImage w s file) := by
  obtain ⟨tiff, hopen, halloc, hread⟩ := (decodes_iff w file.path).mp hdec
  cases hgood : s.outGood with
  | true =>
    simp [processEntry, helig, loadTIFFImage, hopen, halloc, hread, mockModelForward,
      State.acquire, State.release, logPrediction_good, hgood, afterImage, imageEvents]
  | false =>
    simp [processEntry, helig, loadTIFFImage, hopen, halloc, hread, mockModelForward,
      State.acquire, State.release, logPrediction_bad, hgood, afterImage, imageEvents]

theorem processEntry_fails (w : World) (handle : Option Nat) (s : State) (file : DirEntry)
    (helig : eligible file = true) (hdec : decodes w file.path = false) :
    ∃ s1, processEntry w handle s file = Except.error (1, s1)
      ∧ s1.out = s.out ∧ s1.decoded = s.decoded ++ [file.path]
      ∧ s1.randCalls = s.randCalls := by
  unfold decodes at hdec
  cases hopen : w.tiffOpen file.path with
  | none => simp [processEntry, helig, loadTIFFImage, hopen]
  | some tiff =>
    rw [hopen] at hdec
    simp only [Bool.and_eq_false_iff] at hdec
    cases halloc : tiff.allocOk with
    | false => simp [processEntry, helig, loadTIFFImage, hopen, halloc, State.acquire]
    | true =>
      have hread : tiff.readOk = false := by
        rcases hdec with h | h
        · rw [halloc] at h; exact Bool.noConfusion h
        · exact h
      simp [processEntry, helig, loadTIFFImage, hopen, halloc, hread, State.acquire]


theorem processEntries_append (w : World) (handle : Option Nat) (pre post : List DirEntry)
    (s : State) :
    processEntries w handle s (pre ++ post)
      = match processEntries w handle s pre with
        | Except.error e => Except.error e
        | Except.ok s1 => processEntries w handle s1 post := by
  induction pre generalizing s with
  | nil => simp [processEntries]
  | cons file rest ih =>
    simp only [List.cons_append, processEntries]
    cases processEntry w handle s file with
    | error e => simp
    | ok s1 => simp [ih s1]

theorem acquired_append (r : Res) (t1 t2 : List Event) :
    acquired r (t1 ++ t2) = acquired r t1 + acquired r t2 := by
  simp [acquired, List.countP_append]

theorem released_append (r : Res) (t1 t2 : List Event) :
    released r (t1 ++ t2) = released r t1 + released r t2 := by
  simp [released, List.countP_append]

theorem acquired_imageEvents (r : Res) (n : Nat) :
    acquired r (imageEvents n) = if r = Res.cudnnHandle then 0 else 1 := by
  cases r <;> simp [acquired, imageEvents, Event.isAcquire]

theorem released_imageEvents (r : Res) (n : Nat) :
    released r (imageEvents n)
      = if r = Res.cudnnHandle ∨ r = Res.tensorDesc ∨ r = Res.outputDesc then 0 else 1 := by
  cases r <;> simp [released, imageEvents, Event.isRelease]

/-- The loop over entries that all decode, in closed form. -/
theorem processEntries_all_decode (w : World) (handle : Option Nat) (files : List DirEntry)
    (s : State)
    (hall : ∀ e, e ∈ files → eligible e = true → decodes w e.path = true) :
    ∃ s1, processEntries w handle s files = Except.ok s1
      ∧ s1.outGood = s.outGood
      ∧ s1.out = (if s.outGood then s.out ++ concatAll (blocksFrom w s.randCalls files)
          else s.out)
      ∧ s1.randCalls = s.randCalls + numClasses * (files.filter eligible).length
      ∧ s1.decoded = s.decoded ++ (files.filter eligible).map DirEntry.path
      ∧ (∀ r, acquired r s1.trace
          = acquired r s.trace
            + (if r = Res.cudnnHandle then 0 else (files.filter eligible).length))
      ∧ (∀ r, released r s1.trace
          = released r s.trace
            + (if r = Res.cudnnHandle ∨ r = Res.tensorDesc ∨ r = Res.outputDesc then 0
               else (files.filter eligible).length)) := by
  induction files generalizing s with
  | nil =>
    refine ⟨s, rfl, rfl, ?_, ?_, ?_, ?_, ?_⟩
    · simp [blocksFrom, concatAll]
    · simp
    · simp
    · intro r; simp
    · intro r; simp
  | cons file rest ih =>
    have hrest : ∀ e, e ∈ rest → eligible e = true → decodes w e.path = true :=
      fun e he => hall e (List.mem_cons_of_mem _ he)
    cases helig : eligible file with
    | false =>
      obtain ⟨s1, hrun, h1, h2, h3, h4, h5, h6⟩ := ih s hrest
      refine ⟨s1, ?_, h1, ?_, ?_, ?_, ?_, ?_⟩
      · simp [processEntries, processEntry_skip w handle s file helig, hrun]
      · rw [h2]; simp [blocksFrom, helig]
      · rw [h3]; simp [helig]
      · rw [h4]; simp [helig]
      · intro r; rw [h5 r]; simp [helig]
      · intro r; rw [h6 r]; simp [helig]
    | true =>
      have hdec := hall file (List.mem_cons_self _ _) helig
      obtain ⟨s1, hrun, h1, h2, h3, h4, h5, h6⟩ := ih (afterImage w s file) hrest
      refine ⟨s1, ?_, ?_, ?_, ?_, ?_, ?_, ?_⟩
      · simp [processEntries, processEntry_decodes w handle s file helig hdec, hrun]
      · rw [h1]; rfl
      · rw [h2]
        cases hgood : s.outGood with
        | true => simp [afterImage, hgood, blocksFrom, helig, concatAll, String.append_assoc]
        | false => simp [afterImage, hgood]
      · rw [h3]; simp [afterImage, helig]; ring
      · rw [h4]; simp [afterImage, helig]
      · intro r
        rw [h5 r]
        simp only [afterImage, acquired_append, acquired_imageEvents, helig,
          List.filter_cons_of_pos, List.length_cons]
        split_ifs <;> omega
      · intro r
        rw [h6 r]
        simp only [afterImage, released_append, released_imageEvents, helig,
          List.filter_cons_of_pos, List.length_cons]
        split_ifs <;> omega

theorem blocksFrom_eq_enumFrom (w : World) (files : List DirEntry) (k : Nat) :
    blocksFrom w (numClasses * k) files
      = ((files.filter eligible).enumFrom k).map
          (fun kf => reportBlock w kf.2.path (fillScores w numClasses (numClasses * kf.1))) := by
  induction files generalizing k with
  | nil => simp [blocksFrom]
  | cons file rest ih =>
    cases helig : eligible file with
    | false => simp [blocksFrom, helig, ih k]
    | true =>
      have h := ih (k + 1)
      rw [Nat.mul_add, Nat.mul_one] at h
      simp [blocksFrom, helig, h, List.enumFrom]

theorem blocksFrom_zero (w : World) (files : List DirEntry) :
    blocksFrom w 0 files = reportBlocks w files := by
  have h := blocksFrom_eq_enumFrom w files 0
  rw [Nat.mul_zero] at h
  rw [h]
  rfl

theorem main_of_args (w : World) (hargc : 3 ≤ w.argc) :
    main w
      = match processEntries w (loopStart w).1 (loopStart w).2 w.entries with
        | Except.error e => e
        | Except.ok s3 =>
          (0, { (match (loopStart w).1 with
                  | some id => s3.release Res.cudnnHandle id
                  | none => { s3 with undefinedBehaviour := true }) with
                outGood := false }) := by
  have h : ¬ w.argc < 3 := by omega
  simp only [main, h, if_false, loopStart]

theorem loopStart_state (w : World) :
    (loopStart w).2.outGood = w.outOpens ∧ (loopStart w).2.out = ""
      ∧ (loopStart w).2.randCalls = 0 ∧ (loopStart w).2.decoded = []
      ∧ ∀ r, r ≠ Res.cudnnHandle →
          acquired r (loopStart w).2.trace = 0 ∧ released r (loopStart w).2.trace = 0 := by
  cases h : w.cudnnCreateOk
  · simp [loopStart, initializeCuDNN, h, State.init, State.acquire, acquired, released,
      Event.isAcquire, Event.isRelease]
  · refine ⟨?_, ?_, ?_, ?_, ?_⟩
    · simp [loopStart]
    · simp [loopStart, initializeCuDNN, h, State.init, State.acquire]
    · simp [loopStart, initializeCuDNN, h, State.init, State.acquire]
    · simp [loopStart, initializeCuDNN, h, State.init, State.acquire]
    · intro r hr
      have hr2 : ¬ Res.cudnnHandle = r := fun e => hr e.symm
      simp [loopStart, initializeCuDNN, h, State.init, State.acquire, acquired, released,
        Event.isAcquire, Event.isRelease, hr2]


theorem release_handle_fields (s : State) (handle : Option Nat) :
    (match handle with
      | some id => s.release Res.cudnnHandle id
      | none => { s with undefinedBehaviour := true }).out = s.out
    ∧ (match handle with
      | some id => s.release Res.cudnnHandle id
      | none => { s with undefinedBehaviour := true }).decoded = s.decoded := by
  cases handle <;> simp [State.release]

theorem main_all_decode (w : World) (hargc : 3 ≤ w.argc)
    (hall : ∀ e, e ∈ w.entries → eligible e = true → decodes w e.path = true) :
    (main w).1 = 0
      ∧ (main w).2.out = (if w.outOpens then concatAll (reportBlocks w w.entries) else "")
      ∧ (main w).2.decoded = (w.entries.filter eligible).map DirEntry.path := by
  obtain ⟨s1, hrun, _, hout, _, hdecoded, _, _⟩ :=
    processEntries_all_decode w (loopStart w).1 w.entries (loopStart w).2 hall
  obtain ⟨hg, ho, hr, hd, _⟩ := loopStart_state w
  rw [main_of_args w hargc, hrun]
  refine ⟨rfl, ?_, ?_⟩
  · show (match (loopStart w).1 with
        | some id => s1.release Res.cudnnHandle id
        | none => { s1 with undefinedBehaviour := true }).out = _
    rw [(release_handle_fields s1 _).1, hout, hg, ho, hr, blocksFrom_zero]
    simp
  · show (match (loopStart w).1 with
        | some id => s1.release Res.cudnnHandle id
        | none => { s1 with undefinedBehaviour := true }).decoded = _
    rw [(release_handle_fields s1 _).2, hdecoded, hd]
    simp

theorem processEntries_defined (w : World) (handle : Option Nat) (files : List DirEntry)
    (s : State)
    (hall : ∀ e, e ∈ files → eligible e = true → decodes w e.path = true) :
    ∃ s1, processEntries w handle s files = Except.ok s1
      ∧ s1.undefinedBehaviour = s.undefinedBehaviour := by
  induction files generalizing s with
  | nil => exact ⟨s, rfl, rfl⟩
  | cons file rest ih =>
    have hrest : ∀ e, e ∈ rest → eligible e = true → decodes w e.path = true :=
      fun e he => hall e (List.mem_cons_of_mem _ he)
    cases helig : eligible file with
    | false =>
      obtain ⟨s1, hrun, h1⟩ := ih s hrest
      exact ⟨s1, by simp [processEntries, processEntry_skip w handle s file helig, hrun], h1⟩
    | true =>
      have hdec := hall file (List.mem_cons_self _ _) helig
      obtain ⟨s1, hrun, h1⟩ := ih (afterImage w s file) hrest
      exact ⟨s1,
        by simp [processEntries, processEntry_decodes w handle s file helig hdec, hrun], h1⟩

theorem main_defined (w : World) (hargc : 3 ≤ w.argc) (hctx : w.cudnnCreateOk = true)
    (hall : ∀ e, e ∈ w.entries → eligible e = true → decodes w e.path = true) :
    (main w).2.undefinedBehaviour = false := by
  obtain ⟨s1, hrun, hdef⟩ :=
    processEntries_defined w (loopStart w).1 w.entries (loopStart w).2 hall
  have hstart : (loopStart w).1 = some 0 ∧ (loopStart w).2.undefinedBehaviour = false := by
    simp [loopStart, initializeCuDNN, hctx, State.init, State.acquire]
  rw [main_of_args w hargc, hrun, hstart.1]
  show (s1.release Res.cudnnHandle 0).undefinedBehaviour = false
  rw [hstart.2] at hdef
  simp [State.release, hdef]

/-- A run whose `cudnnCreate` failed and whose loop completes reaches
`cudnnDestroy` with an indeterminate handle: the model marks it as
undefined. -/
theorem failed_context_is_undefined :
    (main { sampleWorld [⟨"in/a.tif", ".tif", true⟩] with
          cudnnCreateOk := false }).2.undefinedBehaviour = true := by
  decide!

theorem main_first_failure (w : World) (hargc : 3 ≤ w.argc) (pre post : List DirEntry)
    (bad : DirEntry) (hentries : w.entries = pre ++ bad :: post)
    (hpre : ∀ e, e ∈ pre → eligible e = true → decodes w e.path = true)
    (helig : eligible bad = true) (hbad : decodes w bad.path = false) :
    (main w).1 = 1
      ∧ (main w).2.decoded = (pre.filter eligible).map DirEntry.path ++ [bad.path]
      ∧ (main w).2.out = (if w.outOpens then concatAll (reportBlocks w pre) else "") := by
  obtain ⟨s1, hrun, _, hout, _, hdecoded, _, _⟩ :=
    processEntries_all_decode w (loopStart w).1 pre (loopStart w).2 hpre
  obtain ⟨hg, ho, hr, hd, _⟩ := loopStart_state w
  obtain ⟨s2, hfail, hout2, hdecoded2, _⟩ := processEntry_fails w (loopStart w).1 s1 bad helig hbad
  have hloop : processEntries w (loopStart w).1 (loopStart w).2 w.entries
      = Except.error (1, s2) := by
    rw [hentries, processEntries_append, hrun]
    simp [processEntries, hfail]
  rw [main_of_args w hargc, hloop]
  refine ⟨rfl, ?_, ?_⟩
  · show s2.decoded = _
    rw [hdecoded2, hdecoded, hd]
    simp
  · show s2.out = _
    rw [hout2, hout, hg, ho, hr, blocksFrom_zero]
    simp

/-! ## Claims about `main` -/

/-- C5, as the code has it: in a run with both arguments, an execution
context that initialised and an output file that opens, when every entry
whose extension passes the test of line 120 decodes, whether or not it is a
regular file, the run is well defined, the exit code is 0 and the report is
the concatenation, in iteration order, of one block per such entry: the
block of entry number `k` among them carries its path and the scores drawn
by the calls `10k`, ..., `10k + 9` of `rand()`. Every other entry
contributes nothing. -/
theorem main_report_in_order (w : World) (hargc : 3 ≤ w.argc)
    (hctx : w.cudnnCreateOk = true) (hopen : w.outOpens = true)
    (hall : ∀ e, e ∈ w.entries → eligible e = true → decodes w e.path = true) :
    (main w).1 = 0
      ∧ (main w).2.undefinedBehaviour = false
      ∧ (main w).2.out
          = concatAll ((w.entries.filter eligible).enum.map
              (fun kf => reportBlock w kf.2.path
                (fillScores w numClasses (numClasses * kf.1))))
      ∧ (main w).2.decoded = (w.entries.filter eligible).map DirEntry.path := by
  obtain ⟨h1, h2, h3⟩ := main_all_decode w hargc hall
  refine ⟨h1, main_defined w hargc hctx hall, ?_, h3⟩
  rw [h2, hopen]
  rfl

/-- The report theorem at a directory holding `a.tif`, `notes.txt` and
`b.tiff`: two blocks, `a.tif` first. -/
theorem main_report_in_order_witness :
    (main (sampleWorld [⟨"in/a.tif", ".tif", true⟩, ⟨"in/notes.txt", ".txt", true⟩,
        ⟨"in/b.tiff", ".tiff", true⟩])).2.out
      = concatAll
          [reportBlock (sampleWorld []) "in/a.tif" (fillScores (sampleWorld []) 10 0),
           reportBlock (sampleWorld []) "in/b.tiff" (fillScores (sampleWorld []) 10 10)] :=
  (main_report_in_order
    (sampleWorld [⟨"in/a.tif", ".tif", true⟩, ⟨"in/notes.txt", ".txt", true⟩,
      ⟨"in/b.tiff", ".tiff", true⟩])
    (by decide) rfl rfl (by decide)).2.2.1

/-- C5 as stated fails at a directory that yields a directory named `d.tif`
and then the sound image `a.tif`: every regular file with a recognised
extension decodes, yet `loadTIFFImage` is called on `d.tif` and exits with
code 1, so `a.tif` is never decoded and the stream holds nothing, not the
block of `a.tif`. -/
theorem directory_entry_empties_report :
    (∀ e, e ∈ [(⟨"in/d.tif", ".tif", false⟩ : DirEntry), ⟨"in/a.tif", ".tif", true⟩] →
        specEligible e = true →
        decodes (sampleWorld [⟨"in/d.tif", ".tif", false⟩, ⟨"in/a.tif", ".tif", true⟩]) e.path
          = true)
    ∧ (main (sampleWorld [⟨"in/d.tif", ".tif", false⟩, ⟨"in/a.tif", ".tif", true⟩])).1 = 1
    ∧ (main (sampleWorld [⟨"in/d.tif", ".tif", false⟩, ⟨"in/a.tif", ".tif", true⟩])).2.decoded
        = ["in/d.tif"]
    ∧ (main (sampleWorld [⟨"in/d.tif", ".tif", false⟩, ⟨"in/a.tif", ".tif", true⟩])).2.out = ""
    ∧ (main (sampleWorld [⟨"in/d.tif", ".tif", false⟩, ⟨"in/a.tif", ".tif", true⟩])).2.out
        ≠ concatAll
            [reportBlock (sampleWorld []) "in/a.tif" (fillScores (sampleWorld []) 10 0)] := by
  decide!

/-- C6, as the code has it: the loop body calls `loadTIFFImage` on an entry
exactly when the extension of the entry is `.tif` or `.tiff`, compared
character by character, whether or not the entry is a regular file; an entry
with any other extension leaves the state as it was (no decode call, no
block). -/
theorem processEntry_iff_extension (w : World) (handle : Option Nat) (s : State)
    (file : DirEntry) :
    ((file.extension = ".tif" ∨ file.extension = ".tiff") →
        (stateOf (processEntry w handle s file)).decoded = s.decoded ++ [file.path])
      ∧ (¬ (file.extension = ".tif" ∨ file.extension = ".tiff") →
        processEntry w handle s file = Except.ok s)
      ∧ processEntry w handle s { file with isRegular := !file.isRegular }
        = processEntry w handle s file := by
  refine ⟨?_, ?_, ?_⟩
  · intro hext
    have helig : eligible file = true := by simpa [eligible] using hext
    cases hdec : decodes w file.path with
    | true =>
      rw [processEntry_decodes w handle s file helig hdec]
      rfl
    | false =>
      obtain ⟨s1, hfail, _, hdecoded, _⟩ := processEntry_fails w handle s file helig hdec
      rw [hfail]
      exact hdecoded
  · intro hext
    have helig : eligible file = false := by
      simpa [eligible] using hext
    exact processEntry_skip w handle s file helig
  · rfl

/-- C6 as stated fails at a directory entry that is not a regular file and
is named `d.tif`: `loadTIFFImage` is called on it (and the run ends with
exit code 1 because it cannot be opened as a TIFF), while entries with the
extensions `.TIF` and `.Tiff` are indeed skipped. -/
theorem nonregular_entry_decoded :
    (main (sampleWorld [⟨"in/d.tif", ".tif", false⟩])).2.decoded = ["in/d.tif"]
    ∧ (main (sampleWorld [⟨"in/d.tif", ".tif", false⟩])).1 = 1
    ∧ (main (sampleWorld [⟨"in/A.TIF", ".TIF", true⟩, ⟨"in/B.Tiff", ".Tiff", true⟩])).2.decoded
        = [] := by
  decide!

/-- C7, as the code has it: in a run with both arguments, when an entry that
passes the extension test fails to decode and every such entry before it
decodes, the process ends there with exit code 1: the decode calls are those
of the entries before it and its own, none after, and the stream holds the
blocks of the entries before it and no other. -/
theorem main_exits_on_decode_failure (w : World) (pre post : List DirEntry) (bad : DirEntry)
    (hargc : 3 ≤ w.argc) (hentries : w.entries = pre ++ bad :: post)
    (hpre : ∀ e, e ∈ pre → eligible e = true → decodes w e.path = true)
    (helig : eligible bad = true) (hbad : decodes w bad.path = false) :
    (main w).1 = 1
      ∧ (main w).2.decoded = (pre.filter eligible).map DirEntry.path ++ [bad.path]
      ∧ (main w).2.out
          = (if w.outOpens then
              concatAll ((pre.filter eligible).enum.map
                (fun kf => reportBlock w kf.2.path
                  (fillScores w numClasses (numClasses * kf.1))))
            else "") :=
  main_first_failure w hargc pre post bad hentries hpre helig hbad

/-- The exit theorem at a directory holding `a.tif`, the unreadable
`bad.tif` and `b.tiff`. -/
theorem main_exits_on_decode_failure_witness :
    (main (sampleWorld [⟨"in/a.tif", ".tif", true⟩, ⟨"in/bad.tif", ".tif", true⟩,
        ⟨"in/b.tiff", ".tiff", true⟩])).1 = 1
    ∧ (main (sampleWorld [⟨"in/a.tif", ".tif", true⟩, ⟨"in/bad.tif", ".tif", true⟩,
        ⟨"in/b.tiff", ".tiff", true⟩])).2.decoded = ["in/a.tif", "in/bad.tif"] :=
  ⟨(main_exits_on_decode_failure
      (sampleWorld [⟨"in/a.tif", ".tif", true⟩, ⟨"in/bad.tif", ".tif", true⟩,
        ⟨"in/b.tiff", ".tiff", true⟩])
      [⟨"in/a.tif", ".tif", true⟩] [⟨"in/b.tiff", ".tiff", true⟩] ⟨"in/bad.tif", ".tif", true⟩
      (by decide) rfl (by decide) rfl rfl).1,
   (main_exits_on_decode_failure
      (sampleWorld [⟨"in/a.tif", ".tif", true⟩, ⟨"in/bad.tif", ".tif", true⟩,
        ⟨"in/b.tiff", ".tiff", true⟩])
      [⟨"in/a.tif", ".tif", true⟩] [⟨"in/b.tiff", ".tiff", true⟩] ⟨"in/bad.tif", ".tif", true⟩
      (by decide) rfl (by decide) rfl rfl).2.1⟩

/-- C7 as stated fails at a directory whose first eligible file cannot be
opened and whose second one is a sound image: the exit code is 1, the second
file is never decoded and nothing is reported. -/
theorem decode_failure_aborts_run :
    (main (sampleWorld [⟨"in/bad.tif", ".tif", true⟩, ⟨"in/a.tif", ".tif", true⟩])).1 = 1
    ∧ (main (sampleWorld [⟨"in/bad.tif", ".tif", true⟩, ⟨"in/a.tif", ".tif", true⟩])).2.decoded
        = ["in/bad.tif"]
    ∧ (main (sampleWorld [⟨"in/bad.tif", ".tif", true⟩, ⟨"in/a.tif", ".tif", true⟩])).2.out
        = "" := by
  decide!

/-- C8, as the code has it: with fewer than two arguments the exit code is 1
and no image is decoded; with both arguments and an execution context that
initialised, whether or not the output file opens, a run in which every
entry that passes the extension test decodes is well defined, processes all
of them and returns 0, and when the output file did not open nothing is
written. Nothing is stated about a run whose context failed to
initialise. -/
theorem main_exit_code (w : World) :
    (w.argc < 3 → (main w).1 = 1 ∧ (main w).2.decoded = [] ∧ (main w).2.out = "")
      ∧ (3 ≤ w.argc → w.cudnnCreateOk = true →
          (∀ e, e ∈ w.entries → eligible e = true → decodes w e.path = true) →
          (main w).1 = 0
            ∧ (main w).2.undefinedBehaviour = false
            ∧ (main w).2.decoded = (w.entries.filter eligible).map DirEntry.path
            ∧ (w.outOpens = false → (main w).2.out = "")) := by
  constructor
  · intro h
    simp [main, h, State.init]
  · intro h hctx hall
    obtain ⟨h1, h2, h3⟩ := main_all_decode w h hall
    refine ⟨h1, main_defined w h hctx hall, h3, ?_⟩
    intro hclosed
    rw [h2, hclosed]
    rfl

/-- C8 as stated fails at a run with both arguments and a working context
in which the output file cannot be opened: the image of the directory is
decoded all the same, nothing is written and the exit code is 0, not 1. -/
theorem unopened_output_not_detected :
    (main { sampleWorld [⟨"in/a.tif", ".tif", true⟩] with outOpens := false }).1 = 0
    ∧ (main { sampleWorld [⟨"in/a.tif", ".tif", true⟩] with outOpens := false }).2.decoded
        = ["in/a.tif"]
    ∧ (main { sampleWorld [⟨"in/a.tif", ".tif", true⟩] with outOpens := false }).2.out = ""
    ∧ (main { sampleWorld [⟨"in/a.tif", ".tif", true⟩] with
          outOpens := false }).2.undefinedBehaviour = false := by
  decide!

/-! ## Claims about `mockModelForward` and about resources -/

theorem fillScores_get (w : World) (n calls i : Nat) (hi : i < n) :
    (fillScores w n calls)[i]? = some (scoreOfRand w (w.rand (calls + i))) := by
  induction n generalizing calls i with
  | zero => omega
  | succ n ih =>
    cases i with
    | zero => simp [fillScores]
    | succ i =>
      simp only [fillScores, List.getElem?_cons_succ]
      rw [ih (calls + 1) i (by omega)]
      congr 3
      omega

theorem fillScores_length (w : World) (n calls : Nat) : (fillScores w n calls).length = n := by
  induction n generalizing calls with
  | zero => rfl
  | succ n ih => simp [fillScores, ih]

/-- C9, as the code has it: the score vector `mockModelForward` returns has
`numClasses` entries, entry `i` being computed from the value of call number
`c + i` of `rand()`, where `c` is the number of calls of `rand()` made before;
the call advances that number by `numClasses`. The vector therefore does not
depend on the handle, the descriptor or the tensor, and two calls return the
same vector when they start from the same number of earlier `rand()`
calls. -/
theorem mockModelForward_scores (w : World) (s s2 : State) (handle handle2 : Option Nat)
    (inputDesc inputDesc2 : Nat) (inputData inputData2 : List (Option ℚ)) (n : Nat) :
    (mockModelForward w s handle inputDesc inputData n).1.scores.length = n
      ∧ (∀ i, i < n →
          (mockModelForward w s handle inputDesc inputData n).1.scores[i]?
            = some (scoreOfRand w (w.rand (s.randCalls + i))))
      ∧ (mockModelForward w s handle inputDesc inputData n).2.randCalls = s.randCalls + n
      ∧ (s2.randCalls = s.randCalls →
          (mockModelForward w s2 handle2 inputDesc2 inputData2 n).1.scores
            = (mockModelForward w s handle inputDesc inputData n).1.scores) := by
  refine ⟨?_, ?_, ?_, ?_⟩
  · simp [mockModelForward, State.acquire, fillScores_length]
  · intro i hi
    simp only [mockModelForward, State.acquire]
    exact fillScores_get w n s.randCalls i hi
  · simp [mockModelForward, State.acquire]
  · intro h
    simp [mockModelForward, State.acquire, h]

/-- C9 as stated fails for two consecutive calls with the same handle,
descriptor, tensor and class count: with the sample generator of the C
standard the first call returns a vector starting with `16838 / 32767` as a
`float` and the second a different vector. -/
theorem mockModelForward_not_pure :
    (mockModelForward (sampleWorld []) State.init (some 0) 1 [some 1, some 0, some 0] 10).1.scores
      ≠ (mockModelForward (sampleWorld [])
          (mockModelForward (sampleWorld []) State.init (some 0) 1 [some 1, some 0, some 0] 10).2
          (some 0) 1 [some 1, some 0, some 0] 10).1.scores := by
  decide!

/-- C10: in a run with both arguments, at the start of the loop iteration
that follows any entries which all decode (`m` of them passing the extension
test), each of the raster, tensor and score buffers has been acquired `m`
times and released `m` times, so none is held; but the `2m` tensor
descriptors created for those entries have never been released: `m` input
descriptors and `m` output descriptors are still held. -/
theorem loop_holds_descriptors (w : World) (pre post : List DirEntry)
    (hentries : w.entries = pre ++ post)
    (hpre : ∀ e, e ∈ pre → eligible e = true → decodes w e.path = true) :
    ∃ s, processEntries w (loopStart w).1 (loopStart w).2 pre = Except.ok s
      ∧ processEntries w (loopStart w).1 (loopStart w).2 w.entries
          = processEntries w (loopStart w).1 s post
      ∧ (acquired Res.rasterBuf s.trace = (pre.filter eligible).length
          ∧ released Res.rasterBuf s.trace = (pre.filter eligible).length
          ∧ held Res.rasterBuf s.trace = 0)
      ∧ (acquired Res.tensorBuf s.trace = (pre.filter eligible).length
          ∧ released Res.tensorBuf s.trace = (pre.filter eligible).length
          ∧ held Res.tensorBuf s.trace = 0)
      ∧ (acquired Res.scoreBuf s.trace = (pre.filter eligible).length
          ∧ released Res.scoreBuf s.trace = (pre.filter eligible).length
          ∧ held Res.scoreBuf s.trace = 0)
      ∧ held Res.tensorDesc s.trace = (pre.filter eligible).length
      ∧ held Res.outputDesc s.trace = (pre.filter eligible).length := by
  obtain ⟨s, hrun, _, _, _, _, hacq, hrel⟩ :=
    processEntries_all_decode w (loopStart w).1 pre (loopStart w).2 hpre
  have h0 := (loopStart_state w).2.2.2.2
  refine ⟨s, hrun, ?_, ?_, ?_, ?_, ?_, ?_⟩
  · rw [hentries, processEntries_append, hrun]
  · have a := hacq Res.rasterBuf
    have r := hrel Res.rasterBuf
    rw [(h0 Res.rasterBuf (by decide)).1] at a
    rw [(h0 Res.rasterBuf (by decide)).2] at r
    simp at a r
    exact ⟨a, r, by simp [held, a, r]⟩
  · have a := hacq Res.tensorBuf
    have r := hrel Res.tensorBuf
    rw [(h0 Res.tensorBuf (by decide)).1] at a
    rw [(h0 Res.tensorBuf (by decide)).2] at r
    simp at a r
    exact ⟨a, r, by simp [held, a, r]⟩
  · have a := hacq Res.scoreBuf
    have r := hrel Res.scoreBuf
    rw [(h0 Res.scoreBuf (by decide)).1] at a
    rw [(h0 Res.scoreBuf (by decide)).2] at r
    simp at a r
    exact ⟨a, r, by simp [held, a, r]⟩
  · have a := hacq Res.tensorDesc
    have r := hrel Res.tensorDesc
    rw [(h0 Res.tensorDesc (by decide)).1] at a
    rw [(h0 Res.tensorDesc (by decide)).2] at r
    simp at a r
    simp [held, a, r]
  · have a := hacq Res.outputDesc
    have r := hrel Res.outputDesc
    rw [(h0 Res.outputDesc (by decide)).1] at a
    rw [(h0 Res.outputDesc (by decide)).2] at r
    simp at a r
    simp [held, a, r]

/-- The resource theorem at a directory holding `a.tif` and `b.tiff`: after
both have been processed two input descriptors are held. -/
theorem loop_holds_descriptors_witness :
    ∃ s, processEntries
          (sampleWorld [⟨"in/a.tif", ".tif", true⟩, ⟨"in/b.tiff", ".tiff", true⟩])
          (some 0)
          (loopStart (sampleWorld [⟨"in/a.tif", ".tif", true⟩, ⟨"in/b.tiff", ".tiff", true⟩])).2
          [⟨"in/a.tif", ".tif", true⟩, ⟨"in/b.tiff", ".tiff", true⟩] = Except.ok s
      ∧ held Res.rasterBuf s.trace = 0
      ∧ held Res.tensorDesc s.trace = 2 := by
  obtain ⟨s, h1, _, h3, _, _, h6, _⟩ :=
    loop_holds_descriptors
      (sampleWorld [⟨"in/a.tif", ".tif", true⟩, ⟨"in/b.tiff", ".tiff", true⟩])
      [⟨"in/a.tif", ".tif", true⟩, ⟨"in/b.tiff", ".tiff", true⟩] [] rfl (by decide)
  exact ⟨s, h1, h3.2.2, h6⟩

end TiffPipeline
